import Mathlib

/-!
Verification of the ivfflat cost-estimation core (src/ivfflat.c): the probe
controller (`EstimateProbes`, the probe decision in `ivfflatcostestimate`),
the selectivity combination loop, and the cost-estimate arithmetic.

Doubles in the C source are modelled as exact rationals (ℚ); the C cast of a
double to `int` is modelled by truncation toward zero (`ctrunc`).  The
external collaborator `genericcostestimate` is modelled as an oracle function
from the supplied `numIndexTuples` to its output record, and
`get_float8_infinity()` as a distinguished `Cost.infinite` value.
-/

/-- Process-wide GUC configuration read by `ivfflatcostestimate`:
`ivfflat.probes`, `ivfflat.max_probes` (`-1` = unbounded sentinel) and
`ivfflat.streaming` (`IvfflatInit`, src/ivfflat.c lines 34-44). -/
structure Config where
  ivfflat_probes : ℤ
  ivfflat_max_probes : ℤ
  ivfflat_streaming : Bool
deriving DecidableEq, Repr

/-- PostgreSQL's `DEFAULT_INEQ_SEL` placeholder (selfuncs.h literal
`0.3333333333333333`), as an exact rational. -/
def DEFAULT_INEQ_SEL : ℚ := 3333333333333333 / 10000000000000000

/-- The selectivity-combination loop of `EstimateProbes` (src/ivfflat.c lines
85-93): fold over the `norm_selec` values of `indrestrictinfo`, multiplying in
exactly those lying in [0,1] and different from `DEFAULT_INEQ_SEL`, starting
from 1. -/
def combinedSelectivity (indrestrictinfo : List ℚ) : ℚ :=
  indrestrictinfo.foldl
    (fun selectivity s =>
      if 0 ≤ s ∧ s ≤ 1 ∧ s ≠ DEFAULT_INEQ_SEL then selectivity * s else selectivity)
    1

/-- C conversion of a double to `int`: truncation toward zero. -/
def ctrunc (q : ℚ) : ℤ := if q < 0 then ⌈q⌉ else ⌊q⌋

/-- `EstimateProbes` (src/ivfflat.c lines 73-101): returns 0 when the query has
no usable limit; otherwise computes `tuplesPerList = tuples * selectivity /
lists`, falls back to `lists` when that is exactly zero, and otherwise returns
`limit_tuples / tuplesPerList` truncated to `int`. -/
def EstimateProbes (limit_tuples : ℚ) (indrestrictinfo : List ℚ)
    (tuples : ℚ) (lists : ℤ) : ℤ :=
  if limit_tuples < 0 then 0
  else
    let selectivity := combinedSelectivity indrestrictinfo
    let tuplesPerList := tuples * selectivity / (lists : ℚ)
    if tuplesPerList = 0 then lists
    else ctrunc (limit_tuples / tuplesPerList)

/-- The probe decision of `ivfflatcostestimate` (src/ivfflat.c lines 136-143):
start from `ivfflat_probes`; in streaming mode take the max with
`EstimateProbes` and, unless `ivfflat_max_probes` is the `-1` sentinel, the min
with `ivfflat_max_probes`. -/
def probeDecision (cfg : Config) (limit_tuples : ℚ) (indrestrictinfo : List ℚ)
    (tuples : ℚ) (lists : ℤ) : ℤ :=
  if cfg.ivfflat_streaming then
    let p := max cfg.ivfflat_probes (EstimateProbes limit_tuples indrestrictinfo tuples lists)
    if cfg.ivfflat_max_probes ≠ -1 then min p cfg.ivfflat_max_probes else p
  else
    cfg.ivfflat_probes

/-- The visited-fraction computation of `ivfflatcostestimate` (src/ivfflat.c
lines 145-148): `ratio = probes / lists`, capped at 1.0. -/
def cappedRatio (probes lists : ℤ) : ℚ :=
  let ratio := (probes : ℚ) / (lists : ℚ)
  if ratio > 1 then 1 else ratio

/-- A planner cost value: a finite double, or `get_float8_infinity()`. -/
inductive Cost where
  | finite (c : ℚ)
  | infinite
deriving DecidableEq, Repr

/-- Output of the external `genericcostestimate` collaborator, restricted to
the fields `ivfflatcostestimate` reads. -/
structure GenericCosts where
  indexTotalCost : ℚ
  numIndexPages : ℚ
  indexSelectivity : ℚ
  indexCorrelation : ℚ
  spc_random_page_cost : ℚ
deriving DecidableEq, Repr

/-- The five planner-facing outputs of `ivfflatcostestimate`. -/
structure CostEstimate where
  indexStartupCost : Cost
  indexTotalCost : Cost
  indexSelectivity : ℚ
  indexCorrelation : ℚ
  indexPages : ℚ
deriving DecidableEq, Repr

/-- The query-context inputs `ivfflatcostestimate` reads from `root` and
`path`: whether `path->indexorderbys` is non-NULL, `root->limit_tuples`, the
`norm_selec` values of `path->indexinfo->indrestrictinfo`,
`path->indexinfo->tuples` and `path->indexinfo->rel->pages`. -/
structure QueryPath where
  hasIndexOrderBy : Bool
  limit_tuples : ℚ
  indrestrictinfo : List ℚ
  tuples : ℚ
  relPages : ℚ
deriving DecidableEq, Repr

/-- `ivfflatcostestimate` (src/ivfflat.c lines 106-189).  `gce` is the
external `genericcostestimate`, as a function of the `numIndexTuples` value it
is handed; `spc_seq_page_cost` comes from `get_tablespace_page_costs`. -/
def ivfflatcostestimate (cfg : Config) (path : QueryPath) (lists : ℤ)
    (spc_seq_page_cost : ℚ) (gce : ℚ → GenericCosts) : CostEstimate :=
  if path.hasIndexOrderBy = false then
    { indexStartupCost := Cost.infinite
      indexTotalCost := Cost.infinite
      indexSelectivity := 0
      indexCorrelation := 0
      indexPages := 0 }
  else
    let probes := probeDecision cfg path.limit_tuples path.indrestrictinfo path.tuples lists
    let ratio := cappedRatio probes lists
    let costs := gce (path.tuples * ratio)
    let totalCost :=
      if costs.numIndexPages > path.relPages ∧ ratio < 1/2 then
        costs.indexTotalCost
          - costs.numIndexPages * (costs.spc_random_page_cost - spc_seq_page_cost)
          - (costs.numIndexPages - path.relPages) * spc_seq_page_cost
      else
        costs.indexTotalCost
          - 1/2 * costs.numIndexPages * (costs.spc_random_page_cost - spc_seq_page_cost)
    let selectivity :=
      if ratio < costs.indexSelectivity then ratio else costs.indexSelectivity
    { indexStartupCost := Cost.finite totalCost
      indexTotalCost := Cost.finite totalCost
      indexSelectivity := selectivity
      indexCorrelation := costs.indexCorrelation
      indexPages := costs.numIndexPages }

/-- The condition of the selectivity loop (src/ivfflat.c line 91), as a
Boolean predicate on a `norm_selec` value. -/
def isGenuineSel (s : ℚ) : Bool :=
  decide (0 ≤ s) && decide (s ≤ 1) && decide (s ≠ DEFAULT_INEQ_SEL)

theorem isGenuineSel_iff (s : ℚ) :
    isGenuineSel s = true ↔ (0 ≤ s ∧ s ≤ 1 ∧ s ≠ DEFAULT_INEQ_SEL) := by
  simp [isGenuineSel, and_assoc]

theorem foldl_selStep_eq (l : List ℚ) (a : ℚ) :
    l.foldl
      (fun selectivity s =>
        if 0 ≤ s ∧ s ≤ 1 ∧ s ≠ DEFAULT_INEQ_SEL then selectivity * s else selectivity)
      a
    = a * (l.filter isGenuineSel).prod := by
  induction l generalizing a with
  | nil => simp
  | cons x xs ih =>
    by_cases h : 0 ≤ x ∧ x ≤ 1 ∧ x ≠ DEFAULT_INEQ_SEL
    · have hb : isGenuineSel x = true := (isGenuineSel_iff x).mpr h
      simp only [List.foldl_cons, if_pos h, List.filter_cons, hb, if_true,
        List.prod_cons, ih]
      ring
    · have hb : isGenuineSel x = false := by
        rw [Bool.eq_false_iff]
        exact fun hc => h ((isGenuineSel_iff x).mp hc)
      simp only [List.foldl_cons, if_neg h, List.filter_cons, hb, Bool.false_eq_true,
        if_false, ih]

theorem combinedSelectivity_eq_prod (rs : List ℚ) :
    combinedSelectivity rs = (rs.filter isGenuineSel).prod := by
  rw [combinedSelectivity, foldl_selStep_eq, one_mul]

theorem prod_mem_unitInterval (l : List ℚ) (h : ∀ x ∈ l, 0 ≤ x ∧ x ≤ 1) :
    0 ≤ l.prod ∧ l.prod ≤ 1 := by
  induction l with
  | nil => norm_num
  | cons x xs ih =>
    obtain ⟨hx0, hx1⟩ := h x (List.mem_cons_self x xs)
    obtain ⟨hp0, hp1⟩ := ih fun y hy => h y (List.mem_cons_of_mem x hy)
    rw [List.prod_cons]
    exact ⟨mul_nonneg hx0 hp0, mul_le_one₀ hx1 hp0 hp1⟩

theorem combinedSelectivity_mem_unitInterval (rs : List ℚ) :
    0 ≤ combinedSelectivity rs ∧ combinedSelectivity rs ≤ 1 := by
  rw [combinedSelectivity_eq_prod]
  refine prod_mem_unitInterval _ fun x hx => ?_
  have := ((isGenuineSel_iff x).mp (List.of_mem_filter hx))
  exact ⟨this.1, this.2.1⟩

theorem EstimateProbes_nonneg (limit : ℚ) (rs : List ℚ) (tuples : ℚ) (lists : ℤ)
    (ht : 0 ≤ tuples) (hl : 1 ≤ lists) : 0 ≤ EstimateProbes limit rs tuples lists := by
  unfold EstimateProbes
  by_cases hlim : limit < 0
  · simp [hlim]
  · simp only [hlim, if_false]
    by_cases hz : tuples * combinedSelectivity rs / (lists : ℚ) = 0
    · simp only [hz, if_true, if_pos rfl]
      omega
    · simp only [hz, if_false, if_neg hz]
      have hsel := (combinedSelectivity_mem_unitInterval rs).1
      have hl' : (0 : ℚ) < (lists : ℚ) := by exact_mod_cast lt_of_lt_of_le Int.zero_lt_one hl
      have htpl0 : 0 ≤ tuples * combinedSelectivity rs / (lists : ℚ) :=
        div_nonneg (mul_nonneg ht hsel) (le_of_lt hl')
      have hq : 0 ≤ limit / (tuples * combinedSelectivity rs / (lists : ℚ)) :=
        div_nonneg (not_lt.mp hlim) htpl0
      unfold ctrunc
      rw [if_neg (not_lt.mpr hq)]
      exact Int.floor_nonneg.mpr hq

theorem cappedRatio_eq_min (p lists : ℤ) :
    cappedRatio p lists = min ((p : ℚ) / (lists : ℚ)) 1 := by
  unfold cappedRatio
  by_cases h : (p : ℚ) / (lists : ℚ) > 1
  · rw [if_pos h, min_eq_right (le_of_lt h)]
  · rw [if_neg h, min_eq_left (not_lt.mp h)]

/-- Claim C1: for every query path with no ordering-by-distance clause
(`indexorderbys` empty), the cost estimator returns infinite startup cost,
infinite total cost, zero selectivity, zero correlation and zero pages, for
any list count, probe configuration or other query context. -/
theorem C1_no_order_never_usable (cfg : Config) (path : QueryPath) (lists : ℤ)
    (spc_seq_page_cost : ℚ) (gce : ℚ → GenericCosts)
    (h : path.hasIndexOrderBy = false) :
    ivfflatcostestimate cfg path lists spc_seq_page_cost gce =
      { indexStartupCost := Cost.infinite
        indexTotalCost := Cost.infinite
        indexSelectivity := 0
        indexCorrelation := 0
        indexPages := 0 } := by
  simp [ivfflatcostestimate, h]

theorem C1_no_order_never_usable_witness :
    ivfflatcostestimate ⟨7, -1, true⟩ ⟨false, 10, [1/2], 100, 5⟩ 9 1
        (fun _ => ⟨3, 4, 1/2, 1/4, 4⟩) =
      { indexStartupCost := Cost.infinite
        indexTotalCost := Cost.infinite
        indexSelectivity := 0
        indexCorrelation := 0
        indexPages := 0 } :=
  C1_no_order_never_usable ⟨7, -1, true⟩ ⟨false, 10, [1/2], 100, 5⟩ 9 1
    (fun _ => ⟨3, 4, 1/2, 1/4, 4⟩) rfl

/-- Claim C5: in streaming mode with a usable limit and a bounded `maxProbes`,
the final probe count is `min (max configuredProbes estimatedProbes) maxProbes`
(floor applied before ceiling); concretely, with 1000 indexed tuples, 100
lists, combined selectivity 1, limit 50 and configured probes 1, the result is
5 with no ceiling and 3 with `maxProbes = 3`. -/
theorem C5_streaming_floor_then_ceiling :
    (∀ (cfg : Config) (limit : ℚ) (rs : List ℚ) (tuples : ℚ) (lists : ℤ),
        cfg.ivfflat_streaming = true → cfg.ivfflat_max_probes ≠ -1 → 0 ≤ limit →
        probeDecision cfg limit rs tuples lists =
          min (max cfg.ivfflat_probes (EstimateProbes limit rs tuples lists))
            cfg.ivfflat_max_probes) ∧
    probeDecision ⟨1, -1, true⟩ 50 [] 1000 100 = 5 ∧
    probeDecision ⟨1, 3, true⟩ 50 [] 1000 100 = 3 := by
  refine ⟨?_, ?_, ?_⟩
  · intro cfg limit rs tuples lists hs hm _
    simp [probeDecision, hs, hm]
  · norm_num [probeDecision, EstimateProbes, combinedSelectivity, ctrunc]
  · norm_num [probeDecision, EstimateProbes, combinedSelectivity, ctrunc]

theorem C5_streaming_floor_then_ceiling_witness :
    probeDecision ⟨2, 7, true⟩ 50 [] 1000 100 =
      min (max (2 : ℤ) (EstimateProbes 50 [] 1000 100)) 7 :=
  C5_streaming_floor_then_ceiling.1 ⟨2, 7, true⟩ 50 [] 1000 100 rfl (by decide)
    (by norm_num)

/-- Claim C6: during streaming estimation with a usable limit, when
`tuplesPerList = tuples * selectivity / lists` is exactly zero,
`EstimateProbes` deterministically falls back to returning `lists` (probe all
lists); the degenerate case is not an error. -/
theorem C6_zero_yield_fallback (limit : ℚ) (rs : List ℚ) (tuples : ℚ) (lists : ℤ)
    (hlim : 0 ≤ limit)
    (hz : tuples * combinedSelectivity rs / (lists : ℚ) = 0) :
    EstimateProbes limit rs tuples lists = lists := by
  simp [EstimateProbes, not_lt.mpr hlim, hz]

theorem C6_zero_yield_fallback_witness :
    EstimateProbes 50 [] 0 100 = 100 :=
  C6_zero_yield_fallback 50 [] 0 100 (by norm_num) (by norm_num [combinedSelectivity])

/-- Claim C7: the combined selectivity is the product, starting from 1, of
exactly those restriction selectivities lying in [0,1] and different from the
`DEFAULT_INEQ_SEL` placeholder; 0.5 and 0.2 combine to 0.1, and a
placeholder-valued condition is excluded even though it lies in [0,1]. -/
theorem C7_selectivity_combination :
    (∀ rs : List ℚ, combinedSelectivity rs = (rs.filter isGenuineSel).prod) ∧
    combinedSelectivity [1/2, 1/5] = 1/10 ∧
    combinedSelectivity [1/2, DEFAULT_INEQ_SEL, 1/5] = 1/10 := by
  refine ⟨combinedSelectivity_eq_prod, ?_, ?_⟩ <;>
    norm_num [combinedSelectivity, DEFAULT_INEQ_SEL]

/-- Claim C9: for probe count `p ≥ 1` and list count `L ≥ 1` (including
`p > L`), the visited fraction fed to the generic cost model is
`min (p / L) 1`, hence lies in (0, 1], and the estimated index tuple count
`tuples * ratio` never exceeds the index's total tuple count. -/
theorem C9_capped_ratio_bounds (p lists : ℤ) (tuples : ℚ)
    (hp : 1 ≤ p) (hl : 1 ≤ lists) (ht : 0 ≤ tuples) :
    cappedRatio p lists = min ((p : ℚ) / (lists : ℚ)) 1 ∧
    0 < cappedRatio p lists ∧ cappedRatio p lists ≤ 1 ∧
    tuples * cappedRatio p lists ≤ tuples := by
  have hl' : (0 : ℚ) < (lists : ℚ) := by exact_mod_cast lt_of_lt_of_le Int.zero_lt_one hl
  have hp' : (0 : ℚ) < (p : ℚ) := by exact_mod_cast lt_of_lt_of_le Int.zero_lt_one hp
  have hmin := cappedRatio_eq_min p lists
  have h1 : cappedRatio p lists ≤ 1 := by rw [hmin]; exact min_le_right _ _
  refine ⟨hmin, ?_, h1, ?_⟩
  · rw [hmin]
    exact lt_min (div_pos hp' hl') one_pos
  · calc tuples * cappedRatio p lists ≤ tuples * 1 := mul_le_mul_of_nonneg_left h1 ht
      _ = tuples := mul_one tuples

theorem C9_capped_ratio_bounds_witness :
    cappedRatio 7 3 = min ((7 : ℚ) / (3 : ℚ)) 1 ∧
    0 < cappedRatio 7 3 ∧ cappedRatio 7 3 ≤ 1 ∧
    (10 : ℚ) * cappedRatio 7 3 ≤ 10 :=
  C9_capped_ratio_bounds 7 3 10 (by decide) (by decide) (by norm_num)

/-- Claim C2 counterexample: with configured probes 2 (valid, since the GUC
range is 1..`IVFFLAT_MAX_LISTS`, not 1..`lists`) and an index with a single
list, the probe decision is 2, violating `1 ≤ p ∧ p ≤ lists`: the code never
clamps the probe count to the per-index list count. -/
theorem C2_probe_bound_counterexample :
    ¬ (1 ≤ probeDecision ⟨2, -1, false⟩ 0 [] 0 1 ∧
       probeDecision ⟨2, -1, false⟩ 0 [] 0 1 ≤ 1) := by
  have h : probeDecision ⟨2, -1, false⟩ 0 [] 0 1 = 2 := by norm_num [probeDecision]
  rw [h]
  omega

/-- Claim C2 (amended): for every cost-estimation call with a validated
configuration (`probes ≥ 1`, `maxProbes` either the `-1` sentinel or `≥ 1`),
the probe decision satisfies `1 ≤ p`; the upper bound `p ≤ lists` does not
hold in general — only the visited ratio is capped at 1. -/
theorem C2_probe_lower_bound (cfg : Config) (limit : ℚ) (rs : List ℚ)
    (tuples : ℚ) (lists : ℤ)
    (hp : 1 ≤ cfg.ivfflat_probes)
    (hm : cfg.ivfflat_max_probes = -1 ∨ 1 ≤ cfg.ivfflat_max_probes) :
    1 ≤ probeDecision cfg limit rs tuples lists := by
  unfold probeDecision
  by_cases hs : cfg.ivfflat_streaming = true
  · simp only [hs, if_true]
    by_cases hmm : cfg.ivfflat_max_probes ≠ -1
    · rw [if_pos hmm]
      rcases hm with hm | hm
      · exact absurd hm hmm
      · exact le_min (le_trans hp (le_max_left _ _)) hm
    · rw [if_neg hmm]
      exact le_trans hp (le_max_left _ _)
  · simp only [hs, if_false, Bool.not_eq_true] at *
    simp only [hs, Bool.false_eq_true, if_false]
    exact hp

theorem C2_probe_lower_bound_witness :
    1 ≤ probeDecision ⟨1, -1, true⟩ (-1) [] 0 1 :=
  C2_probe_lower_bound ⟨1, -1, true⟩ (-1) [] 0 1 (by decide) (Or.inl rfl)

/-- Claim C3 counterexample: in non-streaming mode with configured probes 5
and 2 lists, the probe decision is 5, not `min 5 2 = 2`: the estimator never
applies `min(configuredProbes, L)` to the probe count itself. -/
theorem C3_min_clamp_counterexample :
    probeDecision ⟨5, -1, false⟩ 0 [] 0 2 ≠ min 5 2 := by
  have h : probeDecision ⟨5, -1, false⟩ 0 [] 0 2 = 5 := by norm_num [probeDecision]
  rw [h]
  omega

/-- Claim C3 (amended): in non-streaming mode the probe count equals the
configured `probes` value unchanged, regardless of the query's limit or filter
selectivity; the clamp to the list count happens only downstream, through the
capped ratio, which equals `min(configuredProbes, L) / L`. -/
theorem C3_nonstreaming_probes (cfg : Config) (limit : ℚ) (rs : List ℚ)
    (tuples : ℚ) (lists : ℤ)
    (hs : cfg.ivfflat_streaming = false) (hl : 1 ≤ lists) :
    probeDecision cfg limit rs tuples lists = cfg.ivfflat_probes ∧
    cappedRatio (probeDecision cfg limit rs tuples lists) lists =
      ((min cfg.ivfflat_probes lists : ℤ) : ℚ) / (lists : ℚ) := by
  have hl' : (0 : ℚ) < (lists : ℚ) := by exact_mod_cast lt_of_lt_of_le Int.zero_lt_one hl
  have h1 : probeDecision cfg limit rs tuples lists = cfg.ivfflat_probes := by
    simp [probeDecision, hs]
  refine ⟨h1, ?_⟩
  rw [h1, cappedRatio_eq_min, Int.cast_min, ← min_div_div_right (le_of_lt hl'),
    div_self (ne_of_gt hl')]

theorem C3_nonstreaming_probes_witness :
    probeDecision ⟨5, -1, false⟩ 0 [] 0 2 = (5 : ℤ) ∧
    cappedRatio (probeDecision ⟨5, -1, false⟩ 0 [] 0 2) 2 =
      ((min (5 : ℤ) 2 : ℤ) : ℚ) / (2 : ℚ) :=
  C3_nonstreaming_probes ⟨5, -1, false⟩ 0 [] 0 2 rfl (by decide)

/-- Claim C4 counterexample: with limit 5, no restrictions, 20 tuples and 10
lists, `tuplesPerList = 2` and the code returns `5 / 2` truncated to 2, not
`ceil(5 / 2) = 3`: the C double-to-int conversion truncates toward zero rather
than rounding upward. -/
theorem C4_ceil_counterexample :
    EstimateProbes 5 [] 20 10 ≠
      ⌈(5 : ℚ) / ((20 : ℚ) * combinedSelectivity [] / (10 : ℚ))⌉ := by
  have h1 : EstimateProbes 5 [] 20 10 = 2 := by
    norm_num [EstimateProbes, combinedSelectivity, ctrunc]
  have h2 : (20 : ℚ) * combinedSelectivity [] / (10 : ℚ) = 2 := by
    norm_num [combinedSelectivity]
  have h3 : ⌈(5 : ℚ) / 2⌉ = 3 := by
    rw [Int.ceil_eq_iff]
    norm_num
  rw [h1, h2, h3]
  omega

/-- Claim C4 (amended): in streaming mode with a usable (nonnegative) limit
and a strictly positive `tuplesPerList`, the adaptive probe estimate is
`limitTuples / tuplesPerList` truncated toward zero (the floor, for these
nonnegative values), with no upper cap applied at that step — not the ceiling. -/
theorem C4_estimate_truncates (limit : ℚ) (rs : List ℚ) (tuples : ℚ) (lists : ℤ)
    (hlim : 0 ≤ limit)
    (htpl : 0 < tuples * combinedSelectivity rs / (lists : ℚ)) :
    EstimateProbes limit rs tuples lists =
      ⌊limit / (tuples * combinedSelectivity rs / (lists : ℚ))⌋ := by
  have hne : tuples * combinedSelectivity rs / (lists : ℚ) ≠ 0 := ne_of_gt htpl
  have hq : 0 ≤ limit / (tuples * combinedSelectivity rs / (lists : ℚ)) :=
    div_nonneg hlim (le_of_lt htpl)
  unfold EstimateProbes
  rw [if_neg (not_lt.mpr hlim), if_neg hne]
  unfold ctrunc
  rw [if_neg (not_lt.mpr hq)]

theorem C4_estimate_truncates_witness :
    EstimateProbes 5 [] 20 10 =
      ⌊(5 : ℚ) / ((20 : ℚ) * combinedSelectivity [] / (10 : ℚ))⌋ :=
  C4_estimate_truncates 5 [] 20 10 (by norm_num) (by norm_num [combinedSelectivity])

/-- Claim C8: when the baseline page count from the generic cost model exceeds
the relation's page count and the visited ratio is below 0.5, the page-cost
adjustment (repricing all pages from random to sequential and subtracting the
sequential cost of pages beyond the relation's extent) yields a total cost
strictly smaller than the unadjusted baseline, given nonnegative relation
pages and page costs with `0 < seq ≤ random`. -/
theorem C8_toast_adjustment_decreases_cost (cfg : Config) (path : QueryPath)
    (lists : ℤ) (spc_seq_page_cost : ℚ) (gce : ℚ → GenericCosts)
    (costs : GenericCosts)
    (hc : costs = gce (path.tuples * cappedRatio
      (probeDecision cfg path.limit_tuples path.indrestrictinfo path.tuples lists) lists))
    (horder : path.hasIndexOrderBy = true)
    (hpages : costs.numIndexPages > path.relPages)
    (hratio : cappedRatio
      (probeDecision cfg path.limit_tuples path.indrestrictinfo path.tuples lists) lists
        < 1/2)
    (hrp : 0 ≤ path.relPages) (hseq : 0 < spc_seq_page_cost)
    (hrand : spc_seq_page_cost ≤ costs.spc_random_page_cost) :
    (ivfflatcostestimate cfg path lists spc_seq_page_cost gce).indexTotalCost =
      Cost.finite (costs.indexTotalCost
        - costs.numIndexPages * (costs.spc_random_page_cost - spc_seq_page_cost)
        - (costs.numIndexPages - path.relPages) * spc_seq_page_cost) ∧
    costs.indexTotalCost
        - costs.numIndexPages * (costs.spc_random_page_cost - spc_seq_page_cost)
        - (costs.numIndexPages - path.relPages) * spc_seq_page_cost
      < costs.indexTotalCost := by
  constructor
  · subst hc
    simp only [ivfflatcostestimate, horder, Bool.true_eq_false, if_false]
    rw [if_pos ⟨hpages, hratio⟩]
  · have hA : 0 < (costs.numIndexPages - path.relPages) * spc_seq_page_cost :=
      mul_pos (sub_pos.mpr hpages) hseq
    have hB : 0 ≤ costs.numIndexPages * (costs.spc_random_page_cost - spc_seq_page_cost) :=
      mul_nonneg (le_of_lt (lt_of_le_of_lt hrp hpages)) (sub_nonneg.mpr hrand)
    linarith

theorem C8_toast_adjustment_decreases_cost_witness :
    (ivfflatcostestimate ⟨1, -1, false⟩ ⟨true, 0, [], 100, 2⟩ 100 1
        (fun _ => ⟨100, 10, 0, 0, 4⟩)).indexTotalCost =
      Cost.finite ((100 : ℚ) - 10 * ((4 : ℚ) - 1) - ((10 : ℚ) - 2) * 1) ∧
    (100 : ℚ) - 10 * ((4 : ℚ) - 1) - ((10 : ℚ) - 2) * 1 < (100 : ℚ) :=
  C8_toast_adjustment_decreases_cost ⟨1, -1, false⟩ ⟨true, 0, [], 100, 2⟩ 100 1
    (fun _ => ⟨100, 10, 0, 0, 4⟩) ⟨100, 10, 0, 0, 4⟩ rfl rfl (by norm_num)
    (by norm_num [cappedRatio, probeDecision]) (by norm_num) (by norm_num) (by norm_num)

/-- Claim C10: when streaming mode is disabled, the cost estimator's five
outputs are independent of the `maxProbes` setting — two runs differing only
in `maxProbes` produce identical output tuples. -/
theorem C10_nonstreaming_ignores_max_probes (pr m₁ m₂ : ℤ) (path : QueryPath)
    (lists : ℤ) (spc_seq_page_cost : ℚ) (gce : ℚ → GenericCosts) :
    ivfflatcostestimate ⟨pr, m₁, false⟩ path lists spc_seq_page_cost gce =
      ivfflatcostestimate ⟨pr, m₂, false⟩ path lists spc_seq_page_cost gce := by
  simp [ivfflatcostestimate, probeDecision]
